import Mathlib

/-!
Verification of the disassembly-cache core (`src/dasm_cache/dasm_cache.c`).

The development shallowly embeds the cache's data model and the operations
the specification talks about: the `(hash, params)`-indexed striped table
and its lookup functions, the user-to-parse-thread byte ring, the parse
thread's commit of `change_gen`, the instruction/text emission bookkeeping,
and the evictor/detector sweep.  Machine integers are modelled as `Nat`
(the C never relies on wraparound in the embedded paths, except for
monotone ring positions which are genuinely monotone `U64` counters),
byte buffers as functions `Nat → Nat`, and arrays/linked lists as `List`s.
Concurrency is embedded sequentially: each embedded operation is one
critical section's worth of state transition, and condition-variable
broadcasts are recorded as events rather than executed.
-/

/-- 128-bit value, as the pair of its two 64-bit halves (`u64[0]`, `u64[1]`). -/
structure U128 where
  lo : Nat
  hi : Nat
deriving DecidableEq

def u128_zero : U128 := ⟨0, 0⟩

def u128_match (a b : U128) : Bool :=
  a.lo == b.lo && a.hi == b.hi

/-- Debug-info key: a path (byte string) and a minimum timestamp. -/
structure DI_Key where
  path : List Nat
  min_timestamp : Nat
deriving DecidableEq

/-- Modelled from the spec: `di_key_match` is defined in the debug-info layer,
which is not under `src/`; the spec states that two Params are equal iff all
fields are equal and the debug-info keys match componentwise. -/
def di_key_match (a b : DI_Key) : Bool :=
  a.path == b.path && a.min_timestamp == b.min_timestamp

/-- Disassembly parameters (`DASM_Params`).  The syntax tag field is named
`syn_kind` here. -/
structure DASM_Params where
  vaddr : Nat
  arch : Nat
  style_flags : Nat
  syn_kind : Nat
  base_vaddr : Nat
  dbgi_key : DI_Key
deriving DecidableEq

/-- `dasm_params_match` (dasm_cache.c:19-29). -/
def dasm_params_match (a b : DASM_Params) : Bool :=
  a.vaddr == b.vaddr && a.arch == b.arch && a.style_flags == b.style_flags &&
  a.syn_kind == b.syn_kind && a.base_vaddr == b.base_vaddr &&
  di_key_match a.dbgi_key b.dbgi_key

/-- One decoded instruction record (`DASM_Inst`): byte offset into the blob,
jump destination, and the half-open byte range of its line in the rendered
text (`text_range`). -/
structure DASM_Inst where
  code_off : Nat
  jump_dest_vaddr : Nat
  text_range_min : Nat
  text_range_max : Nat
deriving DecidableEq

def dasm_inst_default : DASM_Inst := ⟨0, 0, 0, 0⟩

/-- The cached result (`DASM_Info`): text key plus instruction array;
`insts.count` of the C becomes `insts.length`. -/
structure DASM_Info where
  text_key : U128
  insts : List DASM_Inst
deriving DecidableEq

def dasm_info_empty : DASM_Info := ⟨u128_zero, []⟩

/-! ## Linear scan over the instruction array (dasm_cache.c:66-79) -/

/-- The loop body of `dasm_inst_array_idx_from_code_off__linear_scan`:
`result` starts at 0 and is set to the loop index of the first element whose
`code_off` matches, the loop breaking there. -/
def dasm_linear_scan_loop (off : Nat) : Nat → List DASM_Inst → Nat
  | _, [] => 0
  | idx, i :: rest =>
    if i.code_off == off then idx else dasm_linear_scan_loop off (idx + 1) rest

/-- `dasm_inst_array_idx_from_code_off__linear_scan` (dasm_cache.c:66-79). -/
def dasm_inst_array_idx_from_code_off__linear_scan
    (array : List DASM_Inst) (off : Nat) : Nat :=
  dasm_linear_scan_loop off 0 array

theorem dasm_linear_scan_loop_none (off : Nat) :
    ∀ (l : List DASM_Inst) (idx : Nat),
      (∀ x ∈ l, x.code_off ≠ off) → dasm_linear_scan_loop off idx l = 0 := by
  intro l
  induction l with
  | nil => intro idx _; rfl
  | cons i rest ih =>
    intro idx h
    have hi : i.code_off ≠ off := h i (List.mem_cons_self i rest)
    simp only [dasm_linear_scan_loop]
    rw [if_neg (by simpa using hi)]
    exact ih (idx + 1) fun x hx => h x (List.mem_cons_of_mem i hx)

theorem dasm_linear_scan_loop_found (off : Nat) :
    ∀ (l : List DASM_Inst) (idx : Nat),
      (∃ i, i < l.length ∧ (l.getD i dasm_inst_default).code_off = off) →
      ∃ k, k < l.length ∧ dasm_linear_scan_loop off idx l = idx + k ∧
        (l.getD k dasm_inst_default).code_off = off ∧
        ∀ j < k, (l.getD j dasm_inst_default).code_off ≠ off := by
  intro l
  induction l with
  | nil => intro idx h; obtain ⟨i, hi, _⟩ := h; simp at hi
  | cons x rest ih =>
    intro idx h
    by_cases hx : x.code_off = off
    · refine ⟨0, by simp, ?_, by simpa using hx, by simp⟩
      simp [dasm_linear_scan_loop, hx]
    · have hrest : ∃ i, i < rest.length ∧
          (rest.getD i dasm_inst_default).code_off = off := by
        obtain ⟨i, hi, hoff⟩ := h
        cases i with
        | zero => exact absurd (by simpa using hoff) hx
        | succ i' =>
          exact ⟨i', by simpa using hi, by simpa using hoff⟩
      obtain ⟨k, hk, heq, hoff, hmin⟩ := ih (idx + 1) hrest
      refine ⟨k + 1, by simpa using hk, ?_, by simpa using hoff, ?_⟩
      · simp only [dasm_linear_scan_loop]
        rw [if_neg (by simpa using hx)]
        rw [heq]; omega
      · intro j hj
        cases j with
        | zero => simpa using hx
        | succ j' => simpa using hmin j' (by omega)

/-- C10: for every instruction array and offset,
`dasm_inst_array_idx_from_code_off__linear_scan` returns the smallest index
whose `code_off` equals the given offset, and returns 0 when no element
matches; hence a return value of 0 is ambiguous between a match at index 0
and no match at all (last two conjuncts exhibit both behaviours). -/
theorem dasm_linear_scan_spec (array : List DASM_Inst) (off : Nat) :
    ((∃ i, i < array.length ∧ (array.getD i dasm_inst_default).code_off = off) →
      dasm_inst_array_idx_from_code_off__linear_scan array off < array.length ∧
      (array.getD (dasm_inst_array_idx_from_code_off__linear_scan array off)
        dasm_inst_default).code_off = off ∧
      ∀ j < dasm_inst_array_idx_from_code_off__linear_scan array off,
        (array.getD j dasm_inst_default).code_off ≠ off) ∧
    ((∀ i, i < array.length → (array.getD i dasm_inst_default).code_off ≠ off) →
      dasm_inst_array_idx_from_code_off__linear_scan array off = 0) ∧
    dasm_inst_array_idx_from_code_off__linear_scan [⟨off, 0, 0, 0⟩] off = 0 ∧
    dasm_inst_array_idx_from_code_off__linear_scan [] off = 0 := by
  refine ⟨?_, ?_, ?_, rfl⟩
  · intro h
    obtain ⟨k, hk, heq, hoff, hmin⟩ := dasm_linear_scan_loop_found off array 0 h
    have hres : dasm_inst_array_idx_from_code_off__linear_scan array off = k := by
      simpa [dasm_inst_array_idx_from_code_off__linear_scan] using heq
    rw [hres]
    exact ⟨hk, hoff, hmin⟩
  · intro h
    apply dasm_linear_scan_loop_none
    intro x hx
    obtain ⟨i, hi, hgd⟩ := List.mem_iff_getElem.mp hx
    have := h i hi
    rwa [List.getD_eq_getElem _ _ hi, hgd] at this
  · simp [dasm_inst_array_idx_from_code_off__linear_scan, dasm_linear_scan_loop]

theorem dasm_linear_scan_spec_witness :
    (dasm_inst_array_idx_from_code_off__linear_scan
        [⟨5, 0, 0, 0⟩, ⟨7, 0, 0, 0⟩, ⟨7, 0, 0, 0⟩] 7 <
          ([⟨5, 0, 0, 0⟩, ⟨7, 0, 0, 0⟩, ⟨7, 0, 0, 0⟩] : List DASM_Inst).length ∧
      (([⟨5, 0, 0, 0⟩, ⟨7, 0, 0, 0⟩, ⟨7, 0, 0, 0⟩] : List DASM_Inst).getD
        (dasm_inst_array_idx_from_code_off__linear_scan
          [⟨5, 0, 0, 0⟩, ⟨7, 0, 0, 0⟩, ⟨7, 0, 0, 0⟩] 7)
        dasm_inst_default).code_off = 7 ∧
      ∀ j < dasm_inst_array_idx_from_code_off__linear_scan
          [⟨5, 0, 0, 0⟩, ⟨7, 0, 0, 0⟩, ⟨7, 0, 0, 0⟩] 7,
        (([⟨5, 0, 0, 0⟩, ⟨7, 0, 0, 0⟩, ⟨7, 0, 0, 0⟩] : List DASM_Inst).getD j
          dasm_inst_default).code_off ≠ 7) ∧
    dasm_inst_array_idx_from_code_off__linear_scan [⟨5, 0, 0, 0⟩] 7 = 0 := by
  exact ⟨(dasm_linear_scan_spec [⟨5, 0, 0, 0⟩, ⟨7, 0, 0, 0⟩, ⟨7, 0, 0, 0⟩] 7).1
      ⟨1, by decide, by decide⟩,
    (dasm_linear_scan_spec [⟨5, 0, 0, 0⟩] 7).2.1 (by decide)⟩

/-! ## Commit-time `change_gen` (dasm_cache.c:618-639, 372-373)

The parse thread snapshots `change_gen = fs_change_gen()` right after
dequeuing a request (line 373), and under the commit write lock stores that
snapshot into the node iff the fetched debug info is not the nil sentinel and
the request's style flags intersect SourceLines|SourceFilesNames
(lines 626-633); otherwise it stores 0. -/

/-- Modelled from the spec: the header defining `DASM_StyleFlags` is not under
`src/`; the spec lists the flags (Addresses, CodeBytes, SourceFilesNames,
SourceLines, SymbolNames) as bits of a bitfield, so they are modelled as
distinct single-bit masks. -/
def DASM_StyleFlag_Addresses : Nat := 1

def DASM_StyleFlag_CodeBytes : Nat := 2

def DASM_StyleFlag_SourceLines : Nat := 4

def DASM_StyleFlag_SourceFilesNames : Nat := 8

def DASM_StyleFlag_SymbolNames : Nat := 16

/-- The value that the parse thread's commit step stores into `n->change_gen`
(dasm_cache.c:626-633).  `change_gen` is the fs change-generation snapshot
taken at the start of processing (line 373); `rdi_is_nil` states whether
`rdi == &di_rdi_parsed_nil`. -/
def dasm_commit_change_gen (change_gen : Nat) (rdi_is_nil : Bool)
    (style_flags : Nat) : Nat :=
  if !rdi_is_nil &&
      (style_flags &&&
        (DASM_StyleFlag_SourceLines ||| DASM_StyleFlag_SourceFilesNames)) != 0
  then change_gen
  else 0

/-- C4 counterexample: with a change-generation snapshot of 0, a node
committed with source-line style flags and real (non-nil) debug info still
gets `change_gen = 0`, so "a committed node's change_gen is non-zero iff its
info was produced with source-file annotation and real debug info" fails as
stated. -/
theorem dasm_commit_change_gen_counterexample :
    ¬ (dasm_commit_change_gen 0 false DASM_StyleFlag_SourceLines ≠ 0 ↔
        ((!false) &&
          (DASM_StyleFlag_SourceLines &&&
            (DASM_StyleFlag_SourceLines ||| DASM_StyleFlag_SourceFilesNames))
          != 0) = true) := by
  decide

/-- C4 (amended): the committed `change_gen` equals the snapshot when the
debug info is non-nil and the style flags include SourceLines or
SourceFilesNames, and 0 otherwise; hence, provided the snapshot itself is
non-zero, a committed node's `change_gen` is non-zero iff its info was
produced with source-file annotation and real debug info. -/
theorem dasm_commit_change_gen_spec (change_gen : Nat) (rdi_is_nil : Bool)
    (style_flags : Nat) (hgen : change_gen ≠ 0) :
    (dasm_commit_change_gen change_gen rdi_is_nil style_flags =
      if !rdi_is_nil &&
          (style_flags &&&
            (DASM_StyleFlag_SourceLines ||| DASM_StyleFlag_SourceFilesNames))
          != 0
      then change_gen else 0) ∧
    (dasm_commit_change_gen change_gen rdi_is_nil style_flags ≠ 0 ↔
      (rdi_is_nil = false ∧
        (style_flags &&&
          (DASM_StyleFlag_SourceLines ||| DASM_StyleFlag_SourceFilesNames))
          ≠ 0)) := by
  refine ⟨rfl, ?_⟩
  unfold dasm_commit_change_gen
  by_cases hnil : rdi_is_nil
  · subst hnil; simp
  · have hnil' : rdi_is_nil = false := by simpa using hnil
    subst hnil'
    by_cases hland :
        (style_flags &&&
          (DASM_StyleFlag_SourceLines ||| DASM_StyleFlag_SourceFilesNames)) = 0
    · simp [hland]
    · simp [hland, hgen, bne_iff_ne]

theorem dasm_commit_change_gen_spec_witness :
    (dasm_commit_change_gen 5 false DASM_StyleFlag_SourceLines =
      if !false &&
          (DASM_StyleFlag_SourceLines &&&
            (DASM_StyleFlag_SourceLines ||| DASM_StyleFlag_SourceFilesNames))
          != 0
      then 5 else 0) ∧
    (dasm_commit_change_gen 5 false DASM_StyleFlag_SourceLines ≠ 0 ↔
      (false = false ∧
        (DASM_StyleFlag_SourceLines &&&
          (DASM_StyleFlag_SourceLines ||| DASM_StyleFlag_SourceFilesNames))
          ≠ 0)) :=
  dasm_commit_change_gen_spec 5 false DASM_StyleFlag_SourceLines (by decide)

/-! ## Cache nodes -/

/-- A cache node (`DASM_Node`).  The `info_arena` pointer is modelled by
whether it is non-null. -/
structure DASM_Node where
  hash : U128
  params : DASM_Params
  info_arena : Bool
  info : DASM_Info
  scope_ref_count : Nat
  last_time_touched_us : Nat
  last_user_clock_idx_touched : Nat
  last_time_requested_us : Nat
  last_user_clock_idx_requested : Nat
  load_count : Nat
  is_working : Nat
  change_gen : Nat
deriving DecidableEq

/-- A node as produced by `MemoryZeroStruct` (dasm_cache.c:256). -/
def dasm_zero_node : DASM_Node :=
  ⟨u128_zero, ⟨0, 0, 0, 0, 0, ⟨[], 0⟩⟩, false, dasm_info_empty, 0, 0, 0, 0, 0, 0, 0, 0⟩

/-! ## Evictor/detector sweep (dasm_cache.c:651-725)

One sweep pass over one slot, under the stripe write lock.  The sweep
snapshots `change_gen`, `check_time_us` and `check_time_user_clocks` before
walking the slots; `evict_threshold_us = 10*1000000`,
`evict_threshold_user_clocks = 10`, `retry_threshold_us = 1*1000000`,
`retry_threshold_user_clocks = 10` (lines 657-663).  The re-queue branch's
`dasm_u2p_enqueue_req` is called with deadline `max_U64`, i.e. blocking, so
it is modelled as succeeding; `now2` is the `os_now_microseconds()` value
read when a re-queue succeeds (line 716). -/

/-- The eviction condition of the write-lock walk (dasm_cache.c:697-701). -/
def dasm_evict_cond (now clk : Nat) (n : DASM_Node) : Bool :=
  n.scope_ref_count == 0 &&
  decide (n.last_time_touched_us + 10 * 1000000 ≤ now) &&
  decide (n.last_user_clock_idx_touched + 10 ≤ clk) &&
  n.load_count != 0 &&
  n.is_working == 0

/-- The re-queue (change-detection) condition of the write-lock walk
(dasm_cache.c:710-712). -/
def dasm_requeue_cond (gen now clk : Nat) (n : DASM_Node) : Bool :=
  n.change_gen != 0 && n.change_gen != gen &&
  decide (n.last_time_requested_us + 1 * 1000000 ≤ now) &&
  decide (n.last_user_clock_idx_requested + 10 ≤ clk)

/-- Field updates performed when a re-queue's enqueue succeeds
(dasm_cache.c:716-717). -/
def dasm_requeue_update (clk now2 : Nat) (n : DASM_Node) : DASM_Node :=
  { n with last_time_requested_us := now2, last_user_clock_idx_requested := clk }

/-- Result of sweeping one slot: the remaining slot list, the stripe
free-node stack, the requests enqueued by re-queues (in program order), and
the number of `info_arena`s released. -/
structure DASM_SweepOut where
  slot : List DASM_Node
  free : List DASM_Node
  requeued : List DASM_Node
  released : Nat
deriving DecidableEq

/-- The write-lock walk of one slot (dasm_cache.c:692-721).  Each node is
tested for eviction (unlink, release `info_arena` if non-null, push onto the
stripe free-node stack) and then — not `else` — for re-queue; the saved
`next` pointer is the recursion on `rest`. -/
def dasm_sweep_nodes (gen now clk now2 : Nat) :
    List DASM_Node → List DASM_Node → DASM_SweepOut
  | [], free => ⟨[], free, [], 0⟩
  | n :: rest, free =>
    let ev := dasm_evict_cond now clk n
    let rq := dasm_requeue_cond gen now clk n
    let n' := if rq then dasm_requeue_update clk now2 n else n
    let free' := if ev then n' :: free else free
    let out := dasm_sweep_nodes gen now clk now2 rest free'
    ⟨(if ev then [] else [n']) ++ out.slot, out.free,
      (if rq then [n'] else []) ++ out.requeued,
      (if ev && n.info_arena then 1 else 0) + out.released⟩

/-- One evictor sweep of one slot (dasm_cache.c:669-721): a read-lock pass
first checks whether any node qualifies for eviction or re-queue, and only
then is the write-lock walk performed. -/
def dasm_sweep_slot (gen now clk now2 : Nat)
    (nodes free : List DASM_Node) : DASM_SweepOut :=
  if nodes.any (fun n => dasm_evict_cond now clk n || dasm_requeue_cond gen now clk n)
  then dasm_sweep_nodes gen now clk now2 nodes free
  else ⟨nodes, free, [], 0⟩

theorem dasm_sweep_nodes_spec (gen now clk now2 : Nat) :
    ∀ (nodes free : List DASM_Node),
      (dasm_sweep_nodes gen now clk now2 nodes free).slot =
        (nodes.filter (fun n => !dasm_evict_cond now clk n)).map
          (fun n => if dasm_requeue_cond gen now clk n
            then dasm_requeue_update clk now2 n else n) ∧
      (dasm_sweep_nodes gen now clk now2 nodes free).free =
        ((nodes.filter (fun n => dasm_evict_cond now clk n)).map
          (fun n => if dasm_requeue_cond gen now clk n
            then dasm_requeue_update clk now2 n else n)).reverse ++ free ∧
      (dasm_sweep_nodes gen now clk now2 nodes free).released =
        (nodes.filter
          (fun n => dasm_evict_cond now clk n && n.info_arena)).length := by
  intro nodes
  induction nodes with
  | nil => intro free; exact ⟨rfl, rfl, rfl⟩
  | cons n rest ih =>
    intro free
    obtain ⟨ihs, ihf, ihr⟩ :=
      ih (if dasm_evict_cond now clk n
        then (if dasm_requeue_cond gen now clk n
          then dasm_requeue_update clk now2 n else n) :: free
        else free)
    refine ⟨?_, ?_, ?_⟩
    · simp only [dasm_sweep_nodes, ihs, List.filter_cons]
      by_cases hev : dasm_evict_cond now clk n <;> simp [hev]
    · simp only [dasm_sweep_nodes, ihf, List.filter_cons]
      by_cases hev : dasm_evict_cond now clk n <;> simp [hev]
    · simp only [dasm_sweep_nodes, ihr, List.filter_cons]
      by_cases hev : dasm_evict_cond now clk n <;>
        by_cases har : n.info_arena <;> simp [hev, har]
      all_goals omega

/-- C3: during an evictor sweep with snapshot time `now` and user clock
`clk`, the nodes unlinked from the slot list, their `info_arena` (when
non-null) released, and pushed onto the stripe free stack are exactly those
satisfying all five conditions `scope_ref_count == 0`,
`last_time_touched_us + 10000000 ≤ now`,
`last_user_clock_idx_touched + 10 ≤ clk`, `load_count != 0`,
`is_working == 0`; a node failing any one of them stays in the slot list
(re-queue timestamp updates apart). -/
theorem dasm_evictor_sweep_evicts_iff (gen now clk now2 : Nat)
    (nodes free : List DASM_Node) :
    ((dasm_sweep_slot gen now clk now2 nodes free).slot =
      (nodes.filter (fun n => !dasm_evict_cond now clk n)).map
        (fun n => if dasm_requeue_cond gen now clk n
          then dasm_requeue_update clk now2 n else n) ∧
     (dasm_sweep_slot gen now clk now2 nodes free).free =
      ((nodes.filter (fun n => dasm_evict_cond now clk n)).map
        (fun n => if dasm_requeue_cond gen now clk n
          then dasm_requeue_update clk now2 n else n)).reverse ++ free ∧
     (dasm_sweep_slot gen now clk now2 nodes free).released =
      (nodes.filter
        (fun n => dasm_evict_cond now clk n && n.info_arena)).length) ∧
    ∀ n : DASM_Node, dasm_evict_cond now clk n = true ↔
      (n.scope_ref_count = 0 ∧ n.last_time_touched_us + 10000000 ≤ now ∧
       n.last_user_clock_idx_touched + 10 ≤ clk ∧ n.load_count ≠ 0 ∧
       n.is_working = 0) := by
  constructor
  · unfold dasm_sweep_slot
    by_cases hany : nodes.any
        (fun n => dasm_evict_cond now clk n || dasm_requeue_cond gen now clk n)
    · rw [if_pos hany]
      exact dasm_sweep_nodes_spec gen now clk now2 nodes free
    · rw [if_neg hany]
      have hall : ∀ n ∈ nodes, dasm_evict_cond now clk n = false ∧
          dasm_requeue_cond gen now clk n = false := by
        simpa using hany
      have hmapid : ∀ (l : List DASM_Node),
          (∀ x ∈ l, dasm_requeue_cond gen now clk x = false) →
          l.map (fun n => if dasm_requeue_cond gen now clk n
            then dasm_requeue_update clk now2 n else n) = l := by
        intro l
        induction l with
        | nil => intro _; rfl
        | cons x rest ih =>
          intro hl
          simp only [List.map_cons]
          rw [if_neg (by simp [hl x (List.mem_cons_self x rest)]),
            ih fun y hy => hl y (List.mem_cons_of_mem x hy)]
      refine ⟨?_, ?_, ?_⟩
      · rw [List.filter_eq_self.mpr (fun n hn => by simp [(hall n hn).1]),
          hmapid nodes (fun n hn => (hall n hn).2)]
      · rw [List.filter_eq_nil_iff.mpr (fun n hn => by simp [(hall n hn).1])]
        simp
      · rw [List.filter_eq_nil_iff.mpr (fun n hn => by simp [(hall n hn).1])]
        simp
  · intro n
    simp only [dasm_evict_cond, Bool.and_eq_true, beq_iff_eq, bne_iff_ne,
      decide_eq_true_eq]
    omega

/-- C5: a concrete node satisfying both the eviction and the re-queue
condition.  Sweeping a slot holding it both evicts the node and executes the
re-queue branch on it: the freed node carries the re-queue's timestamp
updates and a fresh request for it is enqueued, contradicting the claim that
an evicted node is never acted on afterwards in the same pass. -/
theorem dasm_evicted_node_requeued_bug :
    dasm_evict_cond 10000000 10
      ⟨⟨1, 1⟩, ⟨0, 0, 0, 0, 0, ⟨[], 0⟩⟩, true, dasm_info_empty,
        0, 0, 0, 0, 0, 1, 0, 1⟩ = true ∧
    dasm_requeue_cond 2 10000000 10
      ⟨⟨1, 1⟩, ⟨0, 0, 0, 0, 0, ⟨[], 0⟩⟩, true, dasm_info_empty,
        0, 0, 0, 0, 0, 1, 0, 1⟩ = true ∧
    dasm_sweep_slot 2 10000000 10 10000001
      [⟨⟨1, 1⟩, ⟨0, 0, 0, 0, 0, ⟨[], 0⟩⟩, true, dasm_info_empty,
        0, 0, 0, 0, 0, 1, 0, 1⟩] [] =
      ⟨[],
       [⟨⟨1, 1⟩, ⟨0, 0, 0, 0, 0, ⟨[], 0⟩⟩, true, dasm_info_empty,
         0, 0, 0, 10000001, 10, 1, 0, 1⟩],
       [⟨⟨1, 1⟩, ⟨0, 0, 0, 0, 0, ⟨[], 0⟩⟩, true, dasm_info_empty,
         0, 0, 0, 10000001, 10, 1, 0, 1⟩],
       1⟩ := by
  refine ⟨by decide, by decide, by decide⟩

/-! ## Shared table state and cache lookups (dasm_cache.c:199-292)

The shared table: 1024 slots of node lists, one free-node stack per stripe,
and the stream of requests pushed onto the user-to-parse ring (the enqueue
in the lookup path uses deadline `max_U64`, i.e. blocks until space, so it
is modelled as succeeding).  The embedding is sequential: each call is one
interleaving-free execution of the function, so the write-lock re-search of
the miss path runs against the same slot contents as the read-lock search.
Scope touch lists (`dasm_scope_touch_node__stripe_r_guarded`) are embedded
only through their effect on the touched node's fields. -/

structure DASM_Shared where
  slots_count : Nat
  stripes_count : Nat
  slots : Nat → List DASM_Node
  free_nodes : Nat → List DASM_Node
  requests : List (U128 × DASM_Params)

/-- The slot-list search of dasm_cache.c:212-221 and 229-236: first node
matching `(hash, params)`. -/
def dasm_slot_find (hash : U128) (params : DASM_Params) :
    List DASM_Node → Option DASM_Node
  | [] => none
  | n :: rest =>
    if u128_match hash n.hash && dasm_params_match params n.params
    then some n
    else dasm_slot_find hash params rest

/-- The touch of the first matching node
(`dasm_scope_touch_node__stripe_r_guarded`, dasm_cache.c:183-194, called at
line 218): bump `scope_ref_count`, stamp the touch times. -/
def dasm_slot_touch_first (hash : U128) (params : DASM_Params)
    (now clk : Nat) : List DASM_Node → List DASM_Node
  | [] => []
  | n :: rest =>
    if u128_match hash n.hash && dasm_params_match params n.params
    then { n with scope_ref_count := n.scope_ref_count + 1,
                  last_time_touched_us := now,
                  last_user_clock_idx_touched := clk } :: rest
    else n :: dasm_slot_touch_first hash params now clk rest

/-- `dasm_info_from_hash_params` (dasm_cache.c:199-272).  `now` and `clk`
are the `os_now_microseconds()` and user-clock values read by the touch. -/
def dasm_info_from_hash_params (st : DASM_Shared) (now clk : Nat)
    (hash : U128) (params : DASM_Params) : DASM_Info × DASM_Shared :=
  if u128_match hash u128_zero then (dasm_info_empty, st)
  else
    let slot_idx := hash.hi % st.slots_count
    let stripe_idx := slot_idx % st.stripes_count
    let slot := st.slots slot_idx
    match dasm_slot_find hash params slot with
    | some n =>
      (n.info,
        { st with slots := fun i =>
            if i = slot_idx
            then dasm_slot_touch_first hash params now clk slot
            else st.slots i })
    | none =>
      match dasm_slot_find hash params slot with
      | some _ => (dasm_info_empty, st)
      | none =>
        let free' := match st.free_nodes stripe_idx with
          | _ :: rest => rest
          | [] => st.free_nodes stripe_idx
        let node := { dasm_zero_node with hash := hash, params := params }
        (dasm_info_empty,
          { st with
            slots := fun i =>
              if i = slot_idx then slot ++ [node] else st.slots i,
            free_nodes := fun i =>
              if i = stripe_idx then free' else st.free_nodes i,
            requests := st.requests ++ [(hash, params)] })

/-- The rewind loop of `dasm_info_from_key_params` (dasm_cache.c:278-290),
instrumented with the list of hashes it looked up.  The loop bound
`rewind_idx < 2` is carried as the structural argument
`fuel = 2 - rewind_idx`, so both are passed along. -/
def dasm_key_params_loop (hs_hash_from_key : U128 → Nat → U128)
    (now clk : Nat) (key : U128) (params : DASM_Params) :
    Nat → Nat → DASM_Shared → DASM_Info → Option U128 → List U128 →
      DASM_Info × DASM_Shared × Option U128 × List U128
  | 0, _, st, result, hash_out, tried => (result, st, hash_out, tried)
  | fuel + 1, rewind_idx, st, _, hash_out, tried =>
    let hash := hs_hash_from_key key rewind_idx
    let r := dasm_info_from_hash_params st now clk hash params
    if r.1.insts.length ≠ 0 then
      (r.1, r.2, hash_out.map (fun _ => hash), tried ++ [hash])
    else
      dasm_key_params_loop hs_hash_from_key now clk key params fuel
        (rewind_idx + 1) r.2 r.1 hash_out (tried ++ [hash])

/-- `dasm_info_from_key_params` (dasm_cache.c:274-292).  `hash_out = none`
models a null `hash_out` pointer; `some v` a pointer to a cell holding `v`.
The fourth component lists the hashes looked up, in order. -/
def dasm_info_from_key_params (hs_hash_from_key : U128 → Nat → U128)
    (st : DASM_Shared) (now clk : Nat) (key : U128) (params : DASM_Params)
    (hash_out : Option U128) :
    DASM_Info × DASM_Shared × Option U128 × List U128 :=
  dasm_key_params_loop hs_hash_from_key now clk key params 2 0 st
    dasm_info_empty hash_out []

/-- C6: a lookup with zero hash returns an empty `Info` and leaves the whole
shared state — every slot, every free list, and the request stream —
unchanged: no node is created and no request is enqueued. -/
theorem dasm_info_from_hash_params_zero_hash (st : DASM_Shared)
    (now clk : Nat) (params : DASM_Params) :
    (dasm_info_from_hash_params st now clk u128_zero params).1.insts.length
        = 0 ∧
    (dasm_info_from_hash_params st now clk u128_zero params).2 = st :=
  ⟨rfl, rfl⟩

/-- C1: `dasm_info_from_key_params` computes `hash = hs_hash_from_key(key,
rewind_idx)` for `rewind_idx = 0` and then 1, calls
`dasm_info_from_hash_params` on each, returns the first result whose
`insts` count is non-zero and writes that result's hash through a non-null
`hash_out`; once the rewind-0 result is non-empty the second rewind is not
tried (the lookup trace is `[hs key 0]` and the state is the rewind-0
state).  When both results are empty the second result is returned and
`hash_out` is left alone. -/
theorem dasm_info_from_key_params_spec (hs : U128 → Nat → U128)
    (st : DASM_Shared) (now clk : Nat) (key : U128) (params : DASM_Params)
    (hash_out : Option U128) :
    dasm_info_from_key_params hs st now clk key params hash_out =
      (if (dasm_info_from_hash_params st now clk (hs key 0) params).1.insts.length
          ≠ 0 then
        ((dasm_info_from_hash_params st now clk (hs key 0) params).1,
         (dasm_info_from_hash_params st now clk (hs key 0) params).2,
         hash_out.map (fun _ => hs key 0), [hs key 0])
      else if (dasm_info_from_hash_params
            (dasm_info_from_hash_params st now clk (hs key 0) params).2
            now clk (hs key 1) params).1.insts.length ≠ 0 then
        ((dasm_info_from_hash_params
            (dasm_info_from_hash_params st now clk (hs key 0) params).2
            now clk (hs key 1) params).1,
         (dasm_info_from_hash_params
            (dasm_info_from_hash_params st now clk (hs key 0) params).2
            now clk (hs key 1) params).2,
         hash_out.map (fun _ => hs key 1), [hs key 0, hs key 1])
      else
        ((dasm_info_from_hash_params
            (dasm_info_from_hash_params st now clk (hs key 0) params).2
            now clk (hs key 1) params).1,
         (dasm_info_from_hash_params
            (dasm_info_from_hash_params st now clk (hs key 0) params).2
            now clk (hs key 1) params).2,
         hash_out, [hs key 0, hs key 1])) := by
  unfold dasm_info_from_key_params
  simp only [dasm_key_params_loop]
  split_ifs <;> rfl

/-- C9: if both rewind lookups inside `dasm_info_from_key_params` return an
empty `Info`, the `hash_out` cell is left unchanged — the function writes
`hash_out` only on a non-empty result. -/
theorem dasm_info_from_key_params_hash_out_frame (hs : U128 → Nat → U128)
    (st : DASM_Shared) (now clk : Nat) (key : U128) (params : DASM_Params)
    (hash_out : Option U128)
    (h0 : (dasm_info_from_hash_params st now clk (hs key 0) params).1.insts.length
        = 0)
    (h1 : (dasm_info_from_hash_params
        (dasm_info_from_hash_params st now clk (hs key 0) params).2
        now clk (hs key 1) params).1.insts.length = 0) :
    (dasm_info_from_key_params hs st now clk key params hash_out).2.2.1 =
      hash_out := by
  unfold dasm_info_from_key_params
  simp only [dasm_key_params_loop]
  rw [if_neg (by simp [h0]), if_neg (by simp [h1])]

theorem dasm_info_from_key_params_hash_out_frame_witness :
    (dasm_info_from_key_params (fun _ r => ⟨r + 1, 5⟩)
      ⟨1024, 1, fun _ => [], fun _ => [], []⟩ 0 0 ⟨0, 0⟩
      ⟨0, 0, 0, 0, 0, ⟨[], 0⟩⟩ (some ⟨9, 9⟩)).2.2.1 = some ⟨9, 9⟩ :=
  dasm_info_from_key_params_hash_out_frame (fun _ r => ⟨r + 1, 5⟩)
    ⟨1024, 1, fun _ => [], fun _ => [], []⟩ 0 0 ⟨0, 0⟩
    ⟨0, 0, 0, 0, 0, ⟨[], 0⟩⟩ (some ⟨9, 9⟩) rfl rfl

/-! ## The user-to-parse request ring (dasm_cache.c:297-359)

A 64 KiB byte ring addressed by monotonically increasing `write_pos` /
`read_pos` with wrap-around `pos % size`; `ring_write`/`ring_read` copy a
byte span into/out of the ring and return its length.  Multi-byte fields
are copied little-endian (x86/x64 struct memory), a 16-byte `U128` as its
`u64[0]` half followed by its `u64[1]` half.  The widths of the
`Architecture`, `DASM_StyleFlags` and `DASM_Syntax` tags are parameters
`a`, `f`, `s` of the embedding (their definitions are outside `src/`);
enqueue and dequeue share them exactly as both sides of the C share
`sizeof` of the same types. -/

/-- Little-endian byte image of `v` in `n` bytes. -/
def leBytes : Nat → Nat → List Nat
  | 0, _ => []
  | n + 1, v => v % 256 :: leBytes n (v / 256)

/-- Little-endian value of a byte list. -/
def leDecode : List Nat → Nat
  | [] => 0
  | b :: rest => b + 256 * leDecode rest

/-- `ring_write` (byte copy into the ring at `pos % size` onward). -/
def ringWriteBytes (size : Nat) : (Nat → Nat) → Nat → List Nat → Nat → Nat
  | base, _, [] => base
  | base, pos, b :: rest =>
    ringWriteBytes size (fun i => if i = pos % size then b else base i)
      (pos + 1) rest

/-- `ring_read` (byte copy out of the ring at `pos % size` onward). -/
def ringReadBytes (base : Nat → Nat) (size : Nat) : Nat → Nat → List Nat
  | _, 0 => []
  | pos, n + 1 => base (pos % size) :: ringReadBytes base size (pos + 1) n

theorem leBytes_length : ∀ (n v : Nat), (leBytes n v).length = n := by
  intro n
  induction n with
  | zero => intro v; rfl
  | succ n ih => intro v; simp [leBytes, ih]

theorem leDecode_leBytes : ∀ (n v : Nat), v < 256 ^ n →
    leDecode (leBytes n v) = v := by
  intro n
  induction n with
  | zero =>
    intro v hv
    simp only [pow_zero, Nat.lt_one_iff] at hv
    simp [hv, leBytes, leDecode]
  | succ n ih =>
    intro v hv
    have hdiv : v / 256 < 256 ^ n := by
      rw [Nat.div_lt_iff_lt_mul (by norm_num : 0 < 256)]
      calc v < 256 ^ (n + 1) := hv
        _ = 256 ^ n * 256 := by rw [pow_succ]
    simp only [leBytes, leDecode, ih (v / 256) hdiv]
    omega

theorem ringReadBytes_length (base : Nat → Nat) (size : Nat) :
    ∀ (n pos : Nat), (ringReadBytes base size pos n).length = n := by
  intro n
  induction n with
  | zero => intro pos; rfl
  | succ n ih => intro pos; simp [ringReadBytes, ih]

theorem ringReadBytes_split (base : Nat → Nat) (size : Nat) :
    ∀ (m pos n : Nat),
      ringReadBytes base size pos (m + n) =
        ringReadBytes base size pos m ++ ringReadBytes base size (pos + m) n := by
  intro m
  induction m with
  | zero => intro pos n; simp [ringReadBytes]
  | succ m ih =>
    intro pos n
    have hsum : m + 1 + n = (m + n) + 1 := by omega
    rw [hsum]
    simp only [ringReadBytes, List.cons_append]
    rw [ih (pos + 1) n]
    have : pos + 1 + m = pos + (m + 1) := by omega
    rw [this]

theorem ringWriteBytes_outside (size : Nat) :
    ∀ (data : List Nat) (base : Nat → Nat) (pos j : Nat),
      (∀ i < data.length, (pos + i) % size ≠ j) →
      ringWriteBytes size base pos data j = base j := by
  intro data
  induction data with
  | nil => intro base pos j _; rfl
  | cons b rest ih =>
    intro base pos j h
    simp only [ringWriteBytes]
    rw [ih _ (pos + 1) j (fun i hi => by
      have h2 := h (i + 1) (by simp; omega)
      have h3 : pos + 1 + i = pos + (i + 1) := by omega
      rw [h3]
      exact h2)]
    have hj : ¬ j = pos % size := by
      have h0 := h 0 (by simp)
      simp only [Nat.add_zero] at h0
      exact fun hh => h0 hh.symm
    simp [hj]

theorem ring_mod_ne (size pos k : Nat) (hk0 : 0 < k) (hks : k < size) :
    (pos + k) % size ≠ pos % size := by
  intro h
  have hmod : Nat.ModEq size pos (pos + k) := h.symm
  have hdvd : size ∣ (pos + k) - pos :=
    (Nat.modEq_iff_dvd' (Nat.le_add_right pos k)).mp hmod
  rw [Nat.add_sub_cancel_left] at hdvd
  exact absurd (Nat.le_of_dvd hk0 hdvd) (by omega)

theorem ringRead_ringWrite (size : Nat) :
    ∀ (data : List Nat) (base : Nat → Nat) (pos : Nat),
      data.length ≤ size →
      ringReadBytes (ringWriteBytes size base pos data) size pos data.length
        = data := by
  intro data
  induction data with
  | nil => intro base pos _; rfl
  | cons b rest ih =>
    intro base pos hlen
    have hlen' : rest.length + 1 ≤ size := by simpa using hlen
    simp only [ringWriteBytes, List.length_cons, ringReadBytes]
    have htail : ringReadBytes
        (ringWriteBytes size (fun i => if i = pos % size then b else base i)
          (pos + 1) rest) size (pos + 1) rest.length = rest :=
      ih _ (pos + 1) (by omega)
    have hhead : ringWriteBytes size
        (fun i => if i = pos % size then b else base i) (pos + 1) rest
        (pos % size) = b := by
      rw [ringWriteBytes_outside size rest _ (pos + 1) (pos % size)
        (fun i hi => by
          have h3 : pos + 1 + i = pos + (i + 1) := by omega
          rw [h3]
          exact ring_mod_ne size pos (i + 1) (by omega) (by omega))]
      simp
    rw [hhead, htail]

theorem ringRead_cons_chunk (base : Nat → Nat) (size pos : Nat)
    (x y : List Nat)
    (h : ringReadBytes base size pos (x.length + y.length) = x ++ y) :
    ringReadBytes base size pos x.length = x ∧
    ringReadBytes base size (pos + x.length) y.length = y := by
  rw [ringReadBytes_split] at h
  exact List.append_inj h (ringReadBytes_length base size x.length pos)

/-- A request record as carried by the ring (the fields written by
`dasm_u2p_enqueue_req`, dasm_cache.c:308-316). -/
structure DASM_Req where
  hash : U128
  vaddr : Nat
  arch : Nat
  style_flags : Nat
  syn_kind : Nat
  base_vaddr : Nat
  path : List Nat
  min_timestamp : Nat
deriving DecidableEq

/-- The byte image of one request record, in the write order of
dasm_cache.c:308-316: hash (16 bytes, low half first), vaddr, arch tag,
style flags, syntax tag, base_vaddr, path length, path bytes,
min_timestamp. -/
def dasm_req_bytes (a f s : Nat) (req : DASM_Req) : List Nat :=
  leBytes 8 req.hash.lo ++ (leBytes 8 req.hash.hi ++ (leBytes 8 req.vaddr ++
  (leBytes a req.arch ++ (leBytes f req.style_flags ++
  (leBytes s req.syn_kind ++ (leBytes 8 req.base_vaddr ++
  (leBytes 8 req.path.length ++ (req.path ++ leBytes 8 req.min_timestamp))))))))

/-- The ring: backing bytes, size, and the two monotone positions. -/
structure DASM_U2PRing where
  size : Nat
  base : Nat → Nat
  write_pos : Nat
  read_pos : Nat

/-- The synchronization objects of the ring that a broadcast can name. -/
inductive DASM_RingSyncObj where
  | ringCV
  | ringMutex
deriving DecidableEq

/-- `dasm_u2p_enqueue_req` (dasm_cache.c:297-332): space permitting, write
the record, advance `write_pos` by the record size, then by 7, then round
down to a multiple of 8; a successful enqueue broadcasts the ring condition
variable (line 329).  The full-ring wait (line 321-325) is modelled as the
failure branch: no write, no broadcast.  The third component records the
handles passed to `os_condition_variable_broadcast`. -/
def dasm_u2p_enqueue_req (a f s : Nat) (ring : DASM_U2PRing)
    (req : DASM_Req) : Bool × DASM_U2PRing × List DASM_RingSyncObj :=
  let unconsumed := ring.write_pos - ring.read_pos
  let available := ring.size - unconsumed
  if 16 + 8 + a + f + s + 8 + 8 + req.path.length + 8 ≤ available then
    let bytes := dasm_req_bytes a f s req
    let wp0 := ring.write_pos + bytes.length
    let wp1 := wp0 + 7
    (true,
      { ring with
        base := ringWriteBytes ring.size ring.base ring.write_pos bytes,
        write_pos := wp1 - wp1 % 8 },
      [DASM_RingSyncObj.ringCV])
  else (false, ring, [])

/-- The field reads of `dasm_u2p_dequeue_req` (dasm_cache.c:342-351),
returning the record read at `p` and the position one past it. -/
def dasm_req_read (a f s : Nat) (base : Nat → Nat) (size p : Nat) :
    DASM_Req × Nat :=
  let pathLen := leDecode (ringReadBytes base size (p + 8 + 8 + 8 + a + f + s + 8) 8)
  (⟨⟨leDecode (ringReadBytes base size p 8),
     leDecode (ringReadBytes base size (p + 8) 8)⟩,
    leDecode (ringReadBytes base size (p + 8 + 8) 8),
    leDecode (ringReadBytes base size (p + 8 + 8 + 8) a),
    leDecode (ringReadBytes base size (p + 8 + 8 + 8 + a) f),
    leDecode (ringReadBytes base size (p + 8 + 8 + 8 + a + f) s),
    leDecode (ringReadBytes base size (p + 8 + 8 + 8 + a + f + s) 8),
    ringReadBytes base size (p + 8 + 8 + 8 + a + f + s + 8 + 8) pathLen,
    leDecode (ringReadBytes base size
      (p + 8 + 8 + 8 + a + f + s + 8 + 8 + pathLen) 8)⟩,
   p + 8 + 8 + 8 + a + f + s + 8 + 8 + pathLen + 8)

/-- `dasm_u2p_dequeue_req` (dasm_cache.c:334-359): once a record's fixed
part is present, read the record, advance `read_pos` past it, then by 7,
then round down to a multiple of 8.  After the read the C passes the ring
MUTEX handle — `dasm_shared->u2p_ring_mutex`, not the condition variable —
to `os_condition_variable_broadcast` (line 358); the third component
records that handle.  The empty-ring wait (line 356) is modelled as the
`none` branch. -/
def dasm_u2p_dequeue_req (a f s : Nat) (ring : DASM_U2PRing) :
    Option DASM_Req × DASM_U2PRing × List DASM_RingSyncObj :=
  if 16 + 8 + a + f + s + 8 + 8 + 8 ≤ ring.write_pos - ring.read_pos then
    let rd := dasm_req_read a f s ring.base ring.size ring.read_pos
    let rp1 := rd.2 + 7
    (some rd.1, { ring with read_pos := rp1 - rp1 % 8 },
      [DASM_RingSyncObj.ringMutex])
  else (none, ring, [])

theorem dasm_req_bytes_length (a f s : Nat) (req : DASM_Req) :
    (dasm_req_bytes a f s req).length =
      8 + (8 + (8 + (a + (f + (s + (8 + (8 + (req.path.length + 8)))))))) := by
  simp [dasm_req_bytes, leBytes_length]


theorem ringRead_peel (base : Nat → Nat) (size pos m ytot : Nat)
    (x y : List Nat) (hx : x.length = m) (hy : y.length = ytot)
    (h : ringReadBytes base size pos (m + ytot) = x ++ y) :
    ringReadBytes base size pos m = x ∧
    ringReadBytes base size (pos + m) ytot = y := by
  subst hx
  subst hy
  exact ringRead_cons_chunk base size pos x y h

/-- Reading a record image back from the ring recovers the record. -/
theorem dasm_req_read_of_write (a f s : Nat) (base : Nat → Nat)
    (size p : Nat) (req : DASM_Req)
    (hfit : (dasm_req_bytes a f s req).length ≤ size)
    (hlo : req.hash.lo < 256 ^ 8) (hhi : req.hash.hi < 256 ^ 8)
    (hva : req.vaddr < 256 ^ 8) (har : req.arch < 256 ^ a)
    (hfl : req.style_flags < 256 ^ f) (hsy : req.syn_kind < 256 ^ s)
    (hbv : req.base_vaddr < 256 ^ 8) (hpl : req.path.length < 256 ^ 8)
    (hmt : req.min_timestamp < 256 ^ 8) :
    dasm_req_read a f s
        (ringWriteBytes size base p (dasm_req_bytes a f s req)) size p =
      (req, p + (dasm_req_bytes a f s req).length) := by
  have hfull := ringRead_ringWrite size (dasm_req_bytes a f s req) base p hfit
  rw [dasm_req_bytes_length] at hfull
  unfold dasm_req_bytes at hfull
  obtain ⟨e1, h1⟩ := ringRead_peel _ size p 8
    (8 + (8 + (a + (f + (s + (8 + (8 + (req.path.length + 8))))))))
    (leBytes 8 req.hash.lo) _ (leBytes_length 8 req.hash.lo)
    (by simp [leBytes_length]) hfull
  obtain ⟨e2, h2⟩ := ringRead_peel _ size (p + 8) 8
    (8 + (a + (f + (s + (8 + (8 + (req.path.length + 8)))))))
    (leBytes 8 req.hash.hi) _ (leBytes_length 8 req.hash.hi)
    (by simp [leBytes_length]) h1
  obtain ⟨e3, h3⟩ := ringRead_peel _ size (p + 8 + 8) 8
    (a + (f + (s + (8 + (8 + (req.path.length + 8))))))
    (leBytes 8 req.vaddr) _ (leBytes_length 8 req.vaddr)
    (by simp [leBytes_length]) h2
  obtain ⟨e4, h4⟩ := ringRead_peel _ size (p + 8 + 8 + 8) a
    (f + (s + (8 + (8 + (req.path.length + 8)))))
    (leBytes a req.arch) _ (leBytes_length a req.arch)
    (by simp [leBytes_length]) h3
  obtain ⟨e5, h5⟩ := ringRead_peel _ size (p + 8 + 8 + 8 + a) f
    (s + (8 + (8 + (req.path.length + 8))))
    (leBytes f req.style_flags) _ (leBytes_length f req.style_flags)
    (by simp [leBytes_length]) h4
  obtain ⟨e6, h6⟩ := ringRead_peel _ size (p + 8 + 8 + 8 + a + f) s
    (8 + (8 + (req.path.length + 8)))
    (leBytes s req.syn_kind) _ (leBytes_length s req.syn_kind)
    (by simp [leBytes_length]) h5
  obtain ⟨e7, h7⟩ := ringRead_peel _ size (p + 8 + 8 + 8 + a + f + s) 8
    (8 + (req.path.length + 8))
    (leBytes 8 req.base_vaddr) _ (leBytes_length 8 req.base_vaddr)
    (by simp [leBytes_length]) h6
  obtain ⟨e8, h8⟩ := ringRead_peel _ size (p + 8 + 8 + 8 + a + f + s + 8) 8
    (req.path.length + 8)
    (leBytes 8 req.path.length) _ (leBytes_length 8 req.path.length)
    (by simp [leBytes_length]) h7
  obtain ⟨e9, e10⟩ := ringRead_peel _ size (p + 8 + 8 + 8 + a + f + s + 8 + 8)
    req.path.length 8 req.path (leBytes 8 req.min_timestamp) rfl
    (leBytes_length 8 req.min_timestamp) h8
  simp only [dasm_req_read]
  unfold dasm_req_bytes
  rw [e1, e2, e3, e4, e5, e6, e7, e8]
  rw [leDecode_leBytes 8 req.path.length hpl]
  rw [e9, e10]
  rw [leDecode_leBytes 8 req.hash.lo hlo, leDecode_leBytes 8 req.hash.hi hhi,
    leDecode_leBytes 8 req.vaddr hva, leDecode_leBytes a req.arch har,
    leDecode_leBytes f req.style_flags hfl,
    leDecode_leBytes s req.syn_kind hsy,
    leDecode_leBytes 8 req.base_vaddr hbv,
    leDecode_leBytes 8 req.min_timestamp hmt]
  refine Prod.ext ?_ ?_
  · rfl
  · simp only [List.length_append, leBytes_length]
    omega

/-- C2: enqueuing a well-formed request record on an empty ring and then
dequeuing yields a record byte-equal to the one enqueued; both sides
advance their position past the record, then by 7, then round down to a
multiple of 8, so that `write_pos` and `read_pos` coincide again after the
round trip. -/
theorem dasm_u2p_ring_roundtrip (a f s : Nat) (ring : DASM_U2PRing)
    (req : DASM_Req)
    (hempty : ring.read_pos = ring.write_pos)
    (hfit : 16 + 8 + a + f + s + 8 + 8 + req.path.length + 8 ≤ ring.size)
    (hlo : req.hash.lo < 2 ^ 64) (hhi : req.hash.hi < 2 ^ 64)
    (hva : req.vaddr < 2 ^ 64) (har : req.arch < 2 ^ (8 * a))
    (hfl : req.style_flags < 2 ^ (8 * f)) (hsy : req.syn_kind < 2 ^ (8 * s))
    (hbv : req.base_vaddr < 2 ^ 64) (hpl : req.path.length < 2 ^ 64)
    (hmt : req.min_timestamp < 2 ^ 64) :
    (dasm_u2p_enqueue_req a f s ring req).1 = true ∧
    (dasm_u2p_dequeue_req a f s
      (dasm_u2p_enqueue_req a f s ring req).2.1).1 = some req ∧
    (dasm_u2p_dequeue_req a f s
        (dasm_u2p_enqueue_req a f s ring req).2.1).2.1.read_pos =
      (dasm_u2p_enqueue_req a f s ring req).2.1.write_pos ∧
    (dasm_u2p_enqueue_req a f s ring req).2.1.write_pos =
      (ring.write_pos + (16 + 8 + a + f + s + 8 + 8 + req.path.length + 8) + 7)
        - (ring.write_pos +
            (16 + 8 + a + f + s + 8 + 8 + req.path.length + 8) + 7) % 8 := by
  have h256 : ∀ n : Nat, (256 : Nat) ^ n = 2 ^ (8 * n) := fun n => by
    rw [show (256 : Nat) = 2 ^ 8 from by norm_num, ← pow_mul]
  have hblen : (dasm_req_bytes a f s req).length =
      16 + 8 + a + f + s + 8 + 8 + req.path.length + 8 := by
    rw [dasm_req_bytes_length]; omega
  have hread := dasm_req_read_of_write a f s ring.base ring.size
    ring.write_pos req (by omega)
    (by simpa [h256 8] using hlo) (by simpa [h256 8] using hhi)
    (by simpa [h256 8] using hva) (by simpa [h256 a] using har)
    (by simpa [h256 f] using hfl) (by simpa [h256 s] using hsy)
    (by simpa [h256 8] using hbv) (by simpa [h256 8] using hpl)
    (by simpa [h256 8] using hmt)
  have henq : dasm_u2p_enqueue_req a f s ring req =
      (true,
       ⟨ring.size,
        ringWriteBytes ring.size ring.base ring.write_pos
          (dasm_req_bytes a f s req),
        (ring.write_pos + (dasm_req_bytes a f s req).length + 7) -
          (ring.write_pos + (dasm_req_bytes a f s req).length + 7) % 8,
        ring.read_pos⟩,
       [DASM_RingSyncObj.ringCV]) := by
    simp only [dasm_u2p_enqueue_req]
    rw [if_pos (by omega)]
  rw [henq]
  have hmod : (ring.write_pos + (dasm_req_bytes a f s req).length + 7) % 8 < 8 :=
    Nat.mod_lt _ (by norm_num)
  have hdeq : dasm_u2p_dequeue_req a f s
      (⟨ring.size,
        ringWriteBytes ring.size ring.base ring.write_pos
          (dasm_req_bytes a f s req),
        (ring.write_pos + (dasm_req_bytes a f s req).length + 7) -
          (ring.write_pos + (dasm_req_bytes a f s req).length + 7) % 8,
        ring.read_pos⟩ : DASM_U2PRing) =
      (some req,
       ⟨ring.size,
        ringWriteBytes ring.size ring.base ring.write_pos
          (dasm_req_bytes a f s req),
        (ring.write_pos + (dasm_req_bytes a f s req).length + 7) -
          (ring.write_pos + (dasm_req_bytes a f s req).length + 7) % 8,
        (ring.write_pos + (dasm_req_bytes a f s req).length + 7) -
          (ring.write_pos + (dasm_req_bytes a f s req).length + 7) % 8⟩,
       [DASM_RingSyncObj.ringMutex]) := by
    simp only [dasm_u2p_dequeue_req]
    rw [if_pos (by omega)]
    rw [hempty, hread]
  rw [hdeq]
  refine ⟨rfl, rfl, rfl, ?_⟩
  rw [hblen]

theorem dasm_u2p_ring_roundtrip_witness :
    (dasm_u2p_enqueue_req 4 4 4 ⟨65536, fun _ => 0, 0, 0⟩
      ⟨⟨1, 2⟩, 3, 1, 5, 0, 4, [65, 66], 7⟩).1 = true ∧
    (dasm_u2p_dequeue_req 4 4 4
      (dasm_u2p_enqueue_req 4 4 4 ⟨65536, fun _ => 0, 0, 0⟩
        ⟨⟨1, 2⟩, 3, 1, 5, 0, 4, [65, 66], 7⟩).2.1).1 =
      some ⟨⟨1, 2⟩, 3, 1, 5, 0, 4, [65, 66], 7⟩ ∧
    (dasm_u2p_dequeue_req 4 4 4
        (dasm_u2p_enqueue_req 4 4 4 ⟨65536, fun _ => 0, 0, 0⟩
          ⟨⟨1, 2⟩, 3, 1, 5, 0, 4, [65, 66], 7⟩).2.1).2.1.read_pos =
      (dasm_u2p_enqueue_req 4 4 4 ⟨65536, fun _ => 0, 0, 0⟩
        ⟨⟨1, 2⟩, 3, 1, 5, 0, 4, [65, 66], 7⟩).2.1.write_pos ∧
    (dasm_u2p_enqueue_req 4 4 4 ⟨65536, fun _ => 0, 0, 0⟩
      ⟨⟨1, 2⟩, 3, 1, 5, 0, 4, [65, 66], 7⟩).2.1.write_pos =
      (0 + (16 + 8 + 4 + 4 + 4 + 8 + 8 + ([65, 66] : List Nat).length + 8) + 7)
        - (0 + (16 + 8 + 4 + 4 + 4 + 8 + 8 + ([65, 66] : List Nat).length + 8)
            + 7) % 8 :=
  dasm_u2p_ring_roundtrip 4 4 4 ⟨65536, fun _ => 0, 0, 0⟩
    ⟨⟨1, 2⟩, 3, 1, 5, 0, 4, [65, 66], 7⟩ rfl (by norm_num) (by norm_num)
    (by norm_num) (by norm_num) (by norm_num) (by norm_num) (by norm_num)
    (by norm_num) (by norm_num) (by norm_num)

/-- C8: every successful enqueue broadcasts the ring condition variable,
but a dequeue that removes a record passes the ring MUTEX handle to
`os_condition_variable_broadcast` (dasm_cache.c:358), not the ring's
condition variable — evaluated here on a concrete record round trip. -/
theorem dasm_dequeue_broadcast_target_bug :
    (dasm_u2p_enqueue_req 4 4 4 ⟨65536, fun _ => 0, 0, 0⟩
      ⟨⟨1, 2⟩, 3, 1, 5, 0, 4, [65, 66], 7⟩).2.2 =
      [DASM_RingSyncObj.ringCV] ∧
    (dasm_u2p_dequeue_req 4 4 4
      (dasm_u2p_enqueue_req 4 4 4 ⟨65536, fun _ => 0, 0, 0⟩
        ⟨⟨1, 2⟩, 3, 1, 5, 0, 4, [65, 66], 7⟩).2.1).2.2 =
      [DASM_RingSyncObj.ringMutex] ∧
    DASM_RingSyncObj.ringMutex ≠ DASM_RingSyncObj.ringCV :=
  ⟨rfl, rfl, by decide⟩

/-! ## Instruction/text emission bookkeeping (dasm_cache.c:567-571, 585-589)

Each iteration of the decode loop appends one `DASM_Inst` record and one
rendered string: synthetic source-annotation records (zero `Inst` plus a
"> ..." line, dasm_cache.c:473-481 and 513-515) and decoded-instruction
records (dasm_cache.c:567-571).  The instruction record's `text_range`
starts at `inst_strings.total_size + inst_strings.node_count`, counting one
byte per already-emitted string for the "\n" separators the final
`str8_list_join` (dasm_cache.c:585-589) will insert. -/

/-- One emission of the decode loop. -/
inductive DASM_Emission where
  | annot (line : List Nat)
  | inst (code_off jump_dest : Nat) (line : List Nat)
deriving DecidableEq

def dasm_emission_line : DASM_Emission → List Nat
  | .annot l => l
  | .inst _ _ l => l

/-- `total_size` of a `String8List`. -/
def str8_list_total_size (l : List (List Nat)) : Nat :=
  (l.map List.length).sum

/-- `str8_list_join` with separator "\n" (byte 10): one separator between
consecutive strings, none leading or trailing. -/
def str8_list_join_lf : List (List Nat) → List Nat
  | [] => []
  | [x] => x
  | x :: y :: rest => x ++ 10 :: str8_list_join_lf (y :: rest)

/-- The record built at dasm_cache.c:568-569 when the decoded instruction at
blob offset `off` with rendered line `line` is pushed after strings `strs`. -/
def dasm_push_inst (strs : List (List Nat)) (off jump : Nat)
    (line : List Nat) : DASM_Inst :=
  ⟨off, jump, str8_list_total_size strs + strs.length,
   str8_list_total_size strs + strs.length + line.length⟩

/-- The `DASM_Inst` records pushed by an emission sequence, starting from
already-emitted strings `strs`; every emission pushes exactly one record
and one string. -/
def dasm_emit_insts (strs : List (List Nat)) :
    List DASM_Emission → List DASM_Inst
  | [] => []
  | .annot l :: rest => dasm_inst_default :: dasm_emit_insts (strs ++ [l]) rest
  | .inst off jump l :: rest =>
    dasm_push_inst strs off jump l :: dasm_emit_insts (strs ++ [l]) rest

theorem list_take_append_self {α : Type} (x y : List α) :
    (x ++ y).take x.length = x := by
  induction x with
  | nil => rfl
  | cons a rest ih => simp [ih]

theorem list_drop_append_add {α : Type} (x y : List α) (m : Nat) :
    (x ++ y).drop (x.length + m) = y.drop m := by
  induction x with
  | nil => simp
  | cons a rest ih =>
    have h1 : (a :: rest).length + m = (rest.length + m) + 1 := by
      simp
      omega
    rw [h1]
    simp only [List.cons_append, List.drop_succ_cons]
    exact ih

theorem str8_list_join_lf_slice :
    ∀ (p : List (List Nat)) (s : List Nat) (q : List (List Nat)),
      ((str8_list_join_lf (p ++ s :: q)).drop
        (str8_list_total_size p + p.length)).take s.length = s := by
  intro p
  induction p with
  | nil =>
    intro s q
    cases q with
    | nil => simp [str8_list_join_lf, str8_list_total_size]
    | cons r rest =>
      simp only [List.nil_append, str8_list_join_lf, str8_list_total_size,
        List.map_nil, List.sum_nil, List.length_nil, Nat.add_zero,
        List.drop_zero]
      exact list_take_append_self s (10 :: str8_list_join_lf (r :: rest))
  | cons x p' ih =>
    intro s q
    have hjoin : str8_list_join_lf ((x :: p') ++ s :: q) =
        x ++ 10 :: str8_list_join_lf (p' ++ s :: q) := by
      cases p' with
      | nil => rfl
      | cons z p'' => rfl
    rw [hjoin]
    have hidx : str8_list_total_size (x :: p') + (x :: p').length =
        x.length + (str8_list_total_size p' + p'.length + 1) := by
      simp [str8_list_total_size]
      omega
    rw [hidx, list_drop_append_add x _ (str8_list_total_size p' + p'.length + 1),
      List.drop_succ_cons]
    exact ih s q

theorem dasm_emit_insts_get :
    ∀ (es : List DASM_Emission) (strs : List (List Nat)) (k off jump : Nat)
      (l : List Nat),
      es[k]? = some (DASM_Emission.inst off jump l) →
      (dasm_emit_insts strs es)[k]? =
        some (dasm_push_inst (strs ++ (es.take k).map dasm_emission_line)
          off jump l) := by
  intro es
  induction es with
  | nil => intro strs k off jump l h; simp at h
  | cons e rest ih =>
    intro strs k off jump l h
    cases k with
    | zero =>
      simp only [List.getElem?_cons_zero, Option.some_inj] at h
      subst h
      simp [dasm_emit_insts]
    | succ k' =>
      simp only [List.getElem?_cons_succ] at h
      cases e with
      | annot la =>
        simpa [dasm_emit_insts, dasm_emission_line, List.append_assoc]
          using ih (strs ++ [la]) k' off jump l h
      | inst o2 j2 l2 =>
        simpa [dasm_emit_insts, dasm_emission_line, List.append_assoc]
          using ih (strs ++ [l2]) k' off jump l h

/-- C7: for every decoded instruction pushed by the worker (the `inst`
emissions, among arbitrary interleaved annotation emissions), the recorded
record has `code_off` equal to the instruction's blob byte offset and
`text_range = [T + N, T + N + L)` where `T` is the total size of all
previously emitted strings, `N` their count (one byte per "\n" separator
the final join inserts), and `L` the rendered line length; consequently the
range selects exactly that instruction's line in the final LF-joined text. -/
theorem dasm_inst_text_range_selects_line (es : List DASM_Emission)
    (k off jump : Nat) (l : List Nat)
    (h : es[k]? = some (DASM_Emission.inst off jump l)) :
    (dasm_emit_insts [] es)[k]? =
      some ⟨off, jump,
        str8_list_total_size ((es.take k).map dasm_emission_line) + k,
        str8_list_total_size ((es.take k).map dasm_emission_line) + k
          + l.length⟩ ∧
    ((str8_list_join_lf (es.map dasm_emission_line)).drop
        (str8_list_total_size ((es.take k).map dasm_emission_line) + k)).take
      l.length = l := by
  obtain ⟨hk, hget⟩ := List.getElem?_eq_some.mp h
  have hlen : ((es.take k).map dasm_emission_line).length = k := by
    simp [List.length_take]
    omega
  constructor
  · rw [dasm_emit_insts_get es [] k off jump l h]
    simp [dasm_push_inst, hlen]
    omega
  · have hsplit : es.map dasm_emission_line =
        (es.take k).map dasm_emission_line ++
          l :: (es.drop (k + 1)).map dasm_emission_line := by
      conv_lhs => rw [← List.take_append_drop k es]
      rw [List.map_append, List.drop_eq_getElem_cons hk, hget]
      rfl
    rw [hsplit]
    have := str8_list_join_lf_slice ((es.take k).map dasm_emission_line) l
      ((es.drop (k + 1)).map dasm_emission_line)
    rwa [hlen] at this

theorem dasm_inst_text_range_selects_line_witness :
    (dasm_emit_insts []
      [DASM_Emission.annot [62, 32, 102], DASM_Emission.inst 0 0 [109, 111, 118],
       DASM_Emission.inst 3 0 [114, 101, 116]])[2]? =
      some ⟨3, 0,
        str8_list_total_size
          (([DASM_Emission.annot [62, 32, 102],
             DASM_Emission.inst 0 0 [109, 111, 118],
             DASM_Emission.inst 3 0 [114, 101, 116]].take 2).map
            dasm_emission_line) + 2,
        str8_list_total_size
          (([DASM_Emission.annot [62, 32, 102],
             DASM_Emission.inst 0 0 [109, 111, 118],
             DASM_Emission.inst 3 0 [114, 101, 116]].take 2).map
            dasm_emission_line) + 2 + ([114, 101, 116] : List Nat).length⟩ ∧
    ((str8_list_join_lf
        ([DASM_Emission.annot [62, 32, 102],
          DASM_Emission.inst 0 0 [109, 111, 118],
          DASM_Emission.inst 3 0 [114, 101, 116]].map dasm_emission_line)).drop
        (str8_list_total_size
          (([DASM_Emission.annot [62, 32, 102],
             DASM_Emission.inst 0 0 [109, 111, 118],
             DASM_Emission.inst 3 0 [114, 101, 116]].take 2).map
            dasm_emission_line) + 2)).take
      ([114, 101, 116] : List Nat).length = [114, 101, 116] :=
  dasm_inst_text_range_selects_line
    [DASM_Emission.annot [62, 32, 102], DASM_Emission.inst 0 0 [109, 111, 118],
     DASM_Emission.inst 3 0 [114, 101, 116]] 2 3 0 [114, 101, 116] rfl
